import Mathlib

/-!
Shallow embedding of the E-Music preview/download API (src/index.js).

The server keeps, per user row, a `previews` JSON object mapping category
names to consumed preview counts, a nullable `passwordHash`, and signs two
kinds of JWT bearer tokens (`type: 'preview'`, `type: 'user'`) with one
server secret.  The database collaborator (mysql pool in src/db) is
modelled as association lists inside a `DB` record; JSON objects become
association lists with JavaScript object-update semantics; `jwt.verify`
success is modelled by a `valid` flag on the token (signed with the server
secret and unexpired); bcrypt hashing is modelled by an injective
constructor, so `bcrypt.compareSync p h` holds exactly when `h` is the
hash of `p`.

One driver-level behaviour of the source is embedded as-is rather than
idealized: the mysql2 callback of `SELECT * FROM songs WHERE id = ?` in the
preview handler and in the download handler receives the whole rows ARRAY
(unlike `findUserByEmail`, which takes `rows[0]`), and the handlers use that
array as if it were a row.  An array is always truthy, so `if (err || !song)`
never fires absent a query error, and `song.category` / `song.filename` are
`undefined`: the allowance object is therefore read and written at the
property key "undefined" (JavaScript stringifies an `undefined` key), and
`path.join(UPLOADS, undefined)` throws a TypeError that the surrounding
try/catch converts to a 500 response before `fs.existsSync` ever runs.
-/

abbrev Email := String
abbrev Category := String
abbrev Password := String

/-- Modelled bcrypt digest: `HashV.mk p` stands for `bcrypt.hashSync(p, salt)`;
`bcrypt.compareSync q h` is modelled as `h = HashV.mk q`. -/
inductive HashV where
  | mk : Password → HashV
deriving DecidableEq, Repr

/-- One row of the `users` table: nullable `passwordHash` and the parsed
`previews` JSON object (category name ↦ consumed count). -/
structure UserRec where
  passwordHash : Option HashV
  previews : List (Category × Nat)
deriving DecidableEq, Repr

/-- One row of the `songs` table (the columns the gate logic reads). -/
structure Song where
  category : Category
  filename : String
deriving DecidableEq, Repr

/-- Persistent state seen by the endpoints: the `users` table keyed by email,
the `songs` table keyed by id, and the set of files present under `uploads/`
(`fs.existsSync`). -/
structure DB where
  users : List (Email × UserRec)
  songs : List (Nat × Song)
  files : List String
deriving DecidableEq, Repr

/-- JavaScript object read `previews[c] || 0`. -/
def objGet (m : List (Category × Nat)) (c : Category) : Nat :=
  match m with
  | [] => 0
  | (k, v) :: rest => if k = c then v else objGet rest c

/-- JavaScript object write `previews[c] = v`: overwrite in place if the key
exists, append otherwise. -/
def objSet (m : List (Category × Nat)) (c : Category) (v : Nat) : List (Category × Nat) :=
  match m with
  | [] => [(c, v)]
  | (k, w) :: rest => if k = c then (c, v) :: rest else (k, w) :: objSet rest c v

/-- `SELECT * FROM users WHERE email = ?` returning the first row
(`findUserByEmail`). -/
def usersGet (l : List (Email × UserRec)) (e : Email) : Option UserRec :=
  match l with
  | [] => none
  | (k, u) :: rest => if k = e then some u else usersGet rest e

/-- `UPDATE users SET previews = ? WHERE email = ?` (`updateUserPreviews`):
rewrites the matching row, affects nothing when no row matches. -/
def usersSetPreviews (l : List (Email × UserRec)) (e : Email)
    (m : List (Category × Nat)) : List (Email × UserRec) :=
  match l with
  | [] => []
  | (k, u) :: rest =>
      if k = e then (k, { u with previews := m }) :: usersSetPreviews rest e m
      else (k, u) :: usersSetPreviews rest e m

/-- `UPDATE users SET passwordHash = ? WHERE email = ?` (`setUserPassword`):
rewrites the matching row, affects nothing when no row matches. -/
def usersSetPassword (l : List (Email × UserRec)) (e : Email)
    (h : HashV) : List (Email × UserRec) :=
  match l with
  | [] => []
  | (k, u) :: rest =>
      if k = e then (k, { u with passwordHash := some h }) :: usersSetPassword rest e h
      else (k, u) :: usersSetPassword rest e h

/-- `INSERT IGNORE INTO users (email, previews) VALUES (?, '{}')`
(`createUser`): inserts a fresh row with empty previews and no password hash
when absent, a no-op when a row for the email already exists. -/
def createUser (st : DB) (e : Email) : DB :=
  match usersGet st.users e with
  | some _ => st
  | none => { st with users := st.users ++ [(e, { passwordHash := none, previews := [] })] }

/-- `SELECT * FROM songs WHERE id = ?` as a row lookup.  The preview and
download handlers never consult the result this way: their callbacks take
the rows array itself, not `rows[0]`, so the row's fields are unreachable
there (see the module comment). -/
def songsGet (l : List (Nat × Song)) (i : Nat) : Option Song :=
  match l with
  | [] => none
  | (k, s) :: rest => if k = i then some s else songsGet rest i

/-- The two JWT payload kinds the server signs (`type: 'preview'` /
`type: 'user'`); the admin token uses a separate secret and never reaches
these endpoints. -/
inductive TokenKind where
  | preview
  | user
deriving DecidableEq, Repr

/-- A bearer token as the endpoints see it: `valid` means `jwt.verify(token,
JWT_SECRET)` succeeds, i.e. the token is signed with the server secret and
unexpired; the payload then carries `email` and `kind`. -/
structure Token where
  email : Email
  kind : TokenKind
  valid : Bool
deriving DecidableEq, Repr

/-- `getEmailFromAuthHeader`: accepts a bearer token of either kind, returns
its email when verification succeeds, `none` on a missing or unverifiable
token.  The token kind is not inspected. -/
def getEmailFromAuthHeader (t : Option Token) : Option Email :=
  match t with
  | none => none
  | some tok => if tok.valid then some tok.email else none

/-- Outcome of `POST /api/request-preview`. -/
inductive RPResult where
  | ok (previewToken : Token)
  | emailRequired
deriving DecidableEq, Repr

/-- `POST /api/request-preview`: requires an email, runs `createUser`
(idempotent insert), then signs a fresh 10-minute preview token. -/
def requestPreviewOp (st : DB) (email : Option Email) : DB × RPResult :=
  match email with
  | none => (st, .emailRequired)
  | some e => (createUser st e, .ok { email := e, kind := .preview, valid := true })

/-- Outcome of `POST /api/pay`. -/
inductive PayResult where
  | ok
  | tokenRequired
  | invalidToken
  | paymentFailed
deriving DecidableEq, Repr

/-- `POST /api/pay`: 400 on a missing token, 401 when `jwt.verify` fails,
402 when `simulateFail` is set, 200 otherwise.  The payload's `type` field is
never inspected and no state is read or written. -/
def payOp (st : DB) (previewToken : Option Token) (simulateFail : Bool) : DB × PayResult :=
  match previewToken with
  | none => (st, .tokenRequired)
  | some t =>
      if !t.valid then (st, .invalidToken)
      else if simulateFail then (st, .paymentFailed)
      else (st, .ok)

/-- Outcome of `POST /api/set-password`. -/
inductive SPResult where
  | ok (token : Token)
  | missingFields
  | invalidToken
deriving DecidableEq, Repr

/-- `POST /api/set-password`: 400 on missing fields, 401 when `jwt.verify`
fails (the `type` field is never inspected), otherwise hashes the password,
runs `setUserPassword` (an UPDATE that affects nothing when no row for the
email exists) and signs a fresh 7-day user token. -/
def setPasswordOp (st : DB) (previewToken : Option Token) (password : Option Password) :
    DB × SPResult :=
  match previewToken, password with
  | none, _ => (st, .missingFields)
  | some _, none => (st, .missingFields)
  | some t, some p =>
      if !t.valid then (st, .invalidToken)
      else
        ({ st with users := usersSetPassword st.users t.email (HashV.mk p) },
         .ok { email := t.email, kind := .user, valid := true })

/-- Outcome of `POST /api/login`. -/
inductive LoginResult where
  | ok (token : Token)
  | missingFields
  | unauthorized
deriving DecidableEq, Repr

/-- `POST /api/login`: 400 on missing fields, 401 when the user is absent,
has no password hash set, or `bcrypt.compareSync` fails; otherwise signs a
fresh 7-day user token. -/
def loginOp (st : DB) (email : Option Email) (password : Option Password) :
    DB × LoginResult :=
  match email, password with
  | none, _ => (st, .missingFields)
  | some _, none => (st, .missingFields)
  | some e, some p =>
      match usersGet st.users e with
      | none => (st, .unauthorized)
      | some u =>
          match u.passwordHash with
          | none => (st, .unauthorized)
          | some h =>
              if h = HashV.mk p then (st, .ok { email := e, kind := .user, valid := true })
              else (st, .unauthorized)

/-- The property key JavaScript uses when an object is indexed with
`undefined`: `previews[song.category]` with `song.category === undefined`
reads and writes `previews["undefined"]`. -/
def undefinedKey : Category := "undefined"

/-- Outcome of `GET /api/preview/:id`.  `songNotFound` is the `!song` branch,
reachable only on a query error (never for an empty rows array); `ok` and
`fileMissing` are the post-`path.join` branches, which the TypeError thrown
by `path.join(UPLOADS, undefined)` makes unreachable; `serverError` is the
catch-all 500 that TypeError lands in. -/
inductive PreviewResult where
  | ok (filename : String)
  | authRequired
  | songNotFound
  | limitReached
  | fileMissing
  | serverError
deriving DecidableEq, Repr

/-- HTTP status of a preview outcome. -/
def PreviewResult.status : PreviewResult → Nat
  | .ok _ => 200
  | .authRequired => 401
  | .songNotFound => 404
  | .limitReached => 403
  | .fileMissing => 404
  | .serverError => 500

/-- `GET /api/preview/:id`: either-kind bearer auth, then the song query —
whose rows array is never consulted: `!song` is false of any array, and
`song.category` / `song.filename` are `undefined` — then lazy user creation
and the `count >= 5` gate on `previews["undefined"]`.  Below the limit the
increment of `previews["undefined"]` is persisted with `updateUserPreviews`,
after which `path.join(UPLOADS, undefined)` throws and the handler answers
500: the stream/`fileMissing` branches are dead code. -/
def previewOp (st : DB) (auth : Option Token) (songId : Nat) : DB × PreviewResult :=
  match getEmailFromAuthHeader auth with
  | none => (st, .authRequired)
  | some email =>
      let st1 := createUser st email
      let user := (usersGet st1.users email).getD { passwordHash := none, previews := [] }
      let count := objGet user.previews undefinedKey
      if count ≥ 5 then (st1, .limitReached)
      else
        let st2 := { st1 with
          users := usersSetPreviews st1.users email
            (objSet user.previews undefinedKey (count + 1)) }
        (st2, .serverError)

/-- Outcome of `GET /api/download/:id`.  `songNotFound` is the `!song`
branch, reachable only on a query error (never for an empty rows array);
`ok` and `fileMissing` are the post-`path.join` branches, unreachable since
`path.join(UPLOADS, undefined)` throws; `serverError` is the resulting 500. -/
inductive DownloadResult where
  | ok (filename : String)
  | tokenRequired
  | invalidToken
  | invalidTokenType
  | songNotFound
  | noAccess
  | noAllowance
  | fileMissing
  | serverError
deriving DecidableEq, Repr

/-- HTTP status of a download outcome (`tokenRequired`, `invalidToken` and
`invalidTokenType` are the three 401 branches of `verifyUserToken`). -/
def DownloadResult.status : DownloadResult → Nat
  | .ok _ => 200
  | .tokenRequired => 401
  | .invalidToken => 401
  | .invalidTokenType => 401
  | .songNotFound => 404
  | .noAccess => 403
  | .noAllowance => 403
  | .fileMissing => 404
  | .serverError => 500

/-- `GET /api/download/:id`: `verifyUserToken` (bearer present, verifies, and
`payload.type === 'user'`), then the song query — whose rows array is never
consulted, exactly as in the preview handler — then the allowance gate
`count > 0` read from `previews["undefined"]`.  When the gate passes,
`path.join(UPLOADS, undefined)` throws and the handler answers 500, so the
attachment stream is unreachable; the previews map is only read, never
written. -/
def downloadOp (st : DB) (auth : Option Token) (songId : Nat) : DB × DownloadResult :=
  match auth with
  | none => (st, .tokenRequired)
  | some tok =>
      if !tok.valid then (st, .invalidToken)
      else if tok.kind ≠ .user then (st, .invalidTokenType)
      else
        match usersGet st.users tok.email with
        | none => (st, .noAccess)
        | some user =>
            let count := objGet user.previews undefinedKey
            if count = 0 then (st, .noAllowance)
            else (st, .serverError)

/-- `POST /api/user/set-password`: `verifyUserToken`, then `setUserPassword`
for the token's email. -/
def userSetPasswordOp (st : DB) (auth : Option Token) (password : Option Password) : DB :=
  match auth with
  | none => st
  | some tok =>
      if !tok.valid then st
      else if tok.kind ≠ .user then st
      else
        match password with
        | none => st
        | some p => { st with users := usersSetPassword st.users tok.email (HashV.mk p) }

/-- The normal-flow operations of the system (the endpoints that can touch
user records; admin endpoints only touch songs, categories and texts). -/
inductive Op where
  | requestPreview (email : Option Email)
  | pay (tok : Option Token) (simulateFail : Bool)
  | setPassword (tok : Option Token) (pw : Option Password)
  | login (email : Option Email) (pw : Option Password)
  | preview (auth : Option Token) (songId : Nat)
  | download (auth : Option Token) (songId : Nat)
  | userSetPassword (auth : Option Token) (pw : Option Password)

/-- State after running one normal-flow operation. -/
def stepOp (st : DB) : Op → DB
  | .requestPreview e => (requestPreviewOp st e).1
  | .pay t sf => (payOp st t sf).1
  | .setPassword t p => (setPasswordOp st t p).1
  | .login e p => (loginOp st e p).1
  | .preview a sid => (previewOp st a sid).1
  | .download a sid => (downloadOp st a sid).1
  | .userSetPassword a p => userSetPasswordOp st a p

/-- The previews object stored for an email (absent user ↦ empty object). -/
def userPrevs (st : DB) (e : Email) : List (Category × Nat) :=
  match usersGet st.users e with
  | some u => u.previews
  | none => []

/-- The stored preview count for a (user, category) pair; an absent user or
absent category entry reads as 0. -/
def userCount (st : DB) (e : Email) (c : Category) : Nat :=
  objGet (userPrevs st e) c

/-- HTTP status of a request-preview outcome. -/
def RPResult.status : RPResult → Nat
  | .ok _ => 200
  | .emailRequired => 400

/-- HTTP status of a pay outcome. -/
def PayResult.status : PayResult → Nat
  | .ok => 200
  | .tokenRequired => 400
  | .invalidToken => 401
  | .paymentFailed => 402

/-- HTTP status of a set-password outcome. -/
def SPResult.status : SPResult → Nat
  | .ok _ => 200
  | .missingFields => 400
  | .invalidToken => 401

/-- HTTP status of a login outcome. -/
def LoginResult.status : LoginResult → Nat
  | .ok _ => 200
  | .missingFields => 400
  | .unauthorized => 401

/- Concrete data used to exercise the theorems. -/

/-- Song #1 of the seed data: category "Calm", file calm1.mp3. -/
def wSong : Song := { category := "Calm", filename := "calm1.mp3" }

/-- A user who has consumed one preview in "Calm". -/
def wUserCalm1 : UserRec := { passwordHash := none, previews := [("Calm", 1)] }

/-- A user whose "Calm" counter is exhausted. -/
def wUserCalm5 : UserRec := { passwordHash := none, previews := [("Calm", 5)] }

/-- State: one user (one "Calm" preview used), song #1, its file present. -/
def wDB1 : DB :=
  { users := [("a@x.com", wUserCalm1)], songs := [(1, wSong)], files := ["calm1.mp3"] }

/-- Same state but the backing file is absent from uploads/. -/
def wDBnofile : DB :=
  { users := [("a@x.com", wUserCalm1)], songs := [(1, wSong)], files := [] }

/-- State with the "Calm" counter exhausted. -/
def wDB5 : DB :=
  { users := [("a@x.com", wUserCalm5)], songs := [(1, wSong)], files := ["calm1.mp3"] }

/-- A user whose shared "undefined" bucket (the key the buggy handlers
actually use) holds one consumed preview. -/
def wUserUndef1 : UserRec := { passwordHash := none, previews := [("undefined", 1)] }

/-- State whose user has `previews = {"undefined": 1}`, song #1, file
present. -/
def wDBundef : DB :=
  { users := [("a@x.com", wUserUndef1)], songs := [(1, wSong)], files := ["calm1.mp3"] }

/-- A valid preview-kind token for a@x.com. -/
def wTokPrev : Token := { email := "a@x.com", kind := .preview, valid := true }

/-- A valid user-kind token for a@x.com. -/
def wTokUser : Token := { email := "a@x.com", kind := .user, valid := true }

/-- A valid preview-kind token for an email with no user row. -/
def wTokGhost : Token := { email := "ghost@x.com", kind := .preview, valid := true }

/- Store lemmas -/

theorem objGet_objSet_same (m : List (Category × Nat)) (c : Category) (v : Nat) :
    objGet (objSet m c v) c = v := by
  induction m with
  | nil => simp [objSet, objGet]
  | cons kv rest ih =>
      obtain ⟨k, w⟩ := kv
      by_cases hk : k = c
      · simp [objSet, objGet, hk]
      · simp [objSet, objGet, hk, ih]

theorem objGet_objSet_other (m : List (Category × Nat)) (c c' : Category) (v : Nat)
    (h : c' ≠ c) : objGet (objSet m c v) c' = objGet m c' := by
  induction m with
  | nil => simp [objSet, objGet, Ne.symm h]
  | cons kv rest ih =>
      obtain ⟨k, w⟩ := kv
      by_cases hk : k = c
      · subst hk
        simp [objSet, objGet, Ne.symm h]
      · simp [objSet, objGet, hk, ih]

theorem objSet_keys_mono (m : List (Category × Nat)) (c c' : Category) (v : Nat)
    (h : c' ∈ m.map Prod.fst) : c' ∈ (objSet m c v).map Prod.fst := by
  induction m with
  | nil => simp at h
  | cons kv rest ih =>
      obtain ⟨k, w⟩ := kv
      rw [List.map_cons, List.mem_cons] at h
      by_cases hk : k = c
      · subst hk
        rcases h with h | h
        · simp [objSet, h]
        · simp only [objSet, if_pos rfl, List.map_cons, List.mem_cons]
          right
          exact h
      · rcases h with h | h
        · simp [objSet, hk, h]
        · simp only [objSet, if_neg hk, List.map_cons, List.mem_cons]
          right
          exact ih h

theorem usersGet_setPreviews_same (l : List (Email × UserRec)) (e : Email)
    (m : List (Category × Nat)) (u : UserRec) (h : usersGet l e = some u) :
    usersGet (usersSetPreviews l e m) e = some { u with previews := m } := by
  induction l with
  | nil => simp [usersGet] at h
  | cons kv rest ih =>
      obtain ⟨k, w⟩ := kv
      by_cases hk : k = e
      · simp [usersGet, hk] at h
        simp [usersSetPreviews, usersGet, hk, h]
      · simp [usersGet, hk] at h
        simp [usersSetPreviews, usersGet, hk, ih h]

theorem usersGet_setPreviews_other (l : List (Email × UserRec)) (e e' : Email)
    (m : List (Category × Nat)) (h : e' ≠ e) :
    usersGet (usersSetPreviews l e m) e' = usersGet l e' := by
  induction l with
  | nil => simp [usersSetPreviews]
  | cons kv rest ih =>
      obtain ⟨k, w⟩ := kv
      by_cases hk : k = e
      · subst hk
        simp [usersSetPreviews, usersGet, Ne.symm h, ih]
      · simp [usersSetPreviews, usersGet, hk, ih]

theorem usersSetPreviews_absent (l : List (Email × UserRec)) (e : Email)
    (m : List (Category × Nat)) (h : usersGet l e = none) :
    usersSetPreviews l e m = l := by
  induction l with
  | nil => simp [usersSetPreviews]
  | cons kv rest ih =>
      obtain ⟨k, w⟩ := kv
      by_cases hk : k = e
      · simp [usersGet, hk] at h
      · simp [usersGet, hk] at h
        simp [usersSetPreviews, hk, ih h]

theorem usersGet_setPassword_same (l : List (Email × UserRec)) (e : Email)
    (hv : HashV) (u : UserRec) (h : usersGet l e = some u) :
    usersGet (usersSetPassword l e hv) e = some { u with passwordHash := some hv } := by
  induction l with
  | nil => simp [usersGet] at h
  | cons kv rest ih =>
      obtain ⟨k, w⟩ := kv
      by_cases hk : k = e
      · simp [usersGet, hk] at h
        simp [usersSetPassword, usersGet, hk, h]
      · simp [usersGet, hk] at h
        simp [usersSetPassword, usersGet, hk, ih h]

theorem usersGet_setPassword_other (l : List (Email × UserRec)) (e e' : Email)
    (hv : HashV) (h : e' ≠ e) :
    usersGet (usersSetPassword l e hv) e' = usersGet l e' := by
  induction l with
  | nil => simp [usersSetPassword]
  | cons kv rest ih =>
      obtain ⟨k, w⟩ := kv
      by_cases hk : k = e
      · subst hk
        simp [usersSetPassword, usersGet, Ne.symm h, ih]
      · simp [usersSetPassword, usersGet, hk, ih]

theorem usersSetPassword_absent (l : List (Email × UserRec)) (e : Email)
    (hv : HashV) (h : usersGet l e = none) :
    usersSetPassword l e hv = l := by
  induction l with
  | nil => simp [usersSetPassword]
  | cons kv rest ih =>
      obtain ⟨k, w⟩ := kv
      by_cases hk : k = e
      · simp [usersGet, hk] at h
      · simp [usersGet, hk] at h
        simp [usersSetPassword, hk, ih h]

theorem usersGet_append_present (l l2 : List (Email × UserRec)) (e : Email)
    (u : UserRec) (h : usersGet l e = some u) : usersGet (l ++ l2) e = some u := by
  induction l with
  | nil => simp [usersGet] at h
  | cons kv rest ih =>
      obtain ⟨k, w⟩ := kv
      by_cases hk : k = e
      · simp [usersGet, hk] at h ⊢
        exact h
      · simp [usersGet, hk] at h ⊢
        exact ih h

theorem usersGet_append_absent (l l2 : List (Email × UserRec)) (e : Email)
    (h : usersGet l e = none) : usersGet (l ++ l2) e = usersGet l2 e := by
  induction l with
  | nil => simp [usersGet]
  | cons kv rest ih =>
      obtain ⟨k, w⟩ := kv
      by_cases hk : k = e
      · simp [usersGet, hk] at h
      · simp [usersGet, hk] at h ⊢
        exact ih h

theorem createUser_present (st : DB) (e : Email) (u : UserRec)
    (h : usersGet st.users e = some u) : createUser st e = st := by
  simp [createUser, h]

theorem createUser_get_self_absent (st : DB) (e : Email)
    (h : usersGet st.users e = none) :
    usersGet (createUser st e).users e = some { passwordHash := none, previews := [] } := by
  simp only [createUser, h]
  rw [usersGet_append_absent _ _ _ h]
  simp [usersGet]

theorem createUser_get_self (st : DB) (e : Email) :
    ∃ u, usersGet (createUser st e).users e = some u ∧
      userPrevs st e = u.previews := by
  cases h : usersGet st.users e with
  | some u =>
      exact ⟨u, by rw [createUser_present st e u h]; exact h, by simp [userPrevs, h]⟩
  | none =>
      exact ⟨{ passwordHash := none, previews := [] },
        createUser_get_self_absent st e h, by simp [userPrevs, h]⟩

theorem createUser_get_other (st : DB) (e e' : Email) (h : e' ≠ e) :
    usersGet (createUser st e).users e' = usersGet st.users e' := by
  cases hg : usersGet st.users e with
  | some u => rw [createUser_present st e u hg]
  | none =>
      simp only [createUser, hg]
      cases hg' : usersGet st.users e' with
      | some u' => exact usersGet_append_present _ _ _ _ hg'
      | none =>
          rw [usersGet_append_absent _ _ _ hg']
          simp [usersGet, Ne.symm h]

theorem userPrevs_createUser (st : DB) (e e' : Email) :
    userPrevs (createUser st e) e' = userPrevs st e' := by
  by_cases h : e' = e
  · subst h
    obtain ⟨u, hu, hprev⟩ := createUser_get_self st e'
    simp [userPrevs, hu, ← hprev]
  · simp [userPrevs, createUser_get_other st e e' h]

theorem createUser_songs (st : DB) (e : Email) : (createUser st e).songs = st.songs := by
  unfold createUser
  cases usersGet st.users e <;> rfl

theorem createUser_files (st : DB) (e : Email) : (createUser st e).files = st.files := by
  unfold createUser
  cases usersGet st.users e <;> rfl

/- Frame lemmas: which operations leave the state untouched. -/

theorem payOp_fst (st : DB) (tok : Option Token) (sf : Bool) : (payOp st tok sf).1 = st := by
  unfold payOp
  rcases tok with _ | t
  · rfl
  · by_cases hv : t.valid <;> cases sf <;> simp [hv]

theorem loginOp_fst (st : DB) (e : Option Email) (p : Option Password) :
    (loginOp st e p).1 = st := by
  unfold loginOp
  rcases e with _ | e
  · rfl
  · rcases p with _ | p
    · rfl
    · dsimp only
      cases usersGet st.users e with
      | none => rfl
      | some u =>
          cases hph : u.passwordHash with
          | none => simp [hph]
          | some h => by_cases hh : h = HashV.mk p <;> simp [hph, hh]

theorem downloadOp_fst (st : DB) (a : Option Token) (sid : Nat) :
    (downloadOp st a sid).1 = st := by
  unfold downloadOp
  rcases a with _ | tok
  · rfl
  · by_cases hv : tok.valid
    · by_cases hk : tok.kind = .user
      · simp only [hv, Bool.not_true, Bool.false_eq_true, if_false, hk, ne_eq,
          not_true_eq_false, if_false]
        cases usersGet st.users tok.email with
        | none => rfl
        | some user =>
            dsimp only
            by_cases hc : objGet user.previews undefinedKey = 0 <;> simp [hc]
      · simp [hv, hk]
    · simp [hv]

theorem userPrevs_setPassword (st : DB) (e e' : Email) (hv : HashV) :
    userPrevs { st with users := usersSetPassword st.users e hv } e' = userPrevs st e' := by
  by_cases he : e' = e
  · subst he
    cases hu : usersGet st.users e' with
    | some u => simp [userPrevs, usersGet_setPassword_same st.users e' hv u hu, hu]
    | none => simp [userPrevs, usersSetPassword_absent st.users e' hv hu, hu]
  · simp [userPrevs, usersGet_setPassword_other st.users e e' hv he]

theorem setPasswordOp_prevs (st : DB) (tok : Option Token) (p : Option Password) (e : Email) :
    userPrevs (setPasswordOp st tok p).1 e = userPrevs st e := by
  unfold setPasswordOp
  rcases tok with _ | t
  · rfl
  · rcases p with _ | pw
    · rfl
    · by_cases hv : t.valid
      · simp only [hv, Bool.not_true, Bool.false_eq_true, if_false]
        exact userPrevs_setPassword st t.email e (HashV.mk pw)
      · simp [hv]

theorem userSetPasswordOp_prevs (st : DB) (a : Option Token) (p : Option Password) (e : Email) :
    userPrevs (userSetPasswordOp st a p) e = userPrevs st e := by
  unfold userSetPasswordOp
  rcases a with _ | t
  · rfl
  · by_cases hv : t.valid
    · by_cases hk : t.kind = .user
      · rcases p with _ | pw
        · simp [hv, hk]
        · simp only [hv, Bool.not_true, Bool.false_eq_true, if_false, hk, ne_eq,
            not_true_eq_false, if_false]
          exact userPrevs_setPassword st t.email e (HashV.mk pw)
      · simp [hv, hk]
    · simp [hv]

/-- Structural description of the state `GET /api/preview/:id` leaves behind:
untouched on auth failure, lazily-created user on the Forbidden branch, and
the persisted increment of the "undefined" bucket otherwise (the 500 from
`path.join` lands after the write). -/
theorem previewOp_fst_cases (st : DB) (a : Option Token) (sid : Nat) :
    (previewOp st a sid).1 = st ∨
    (∃ email, getEmailFromAuthHeader a = some email ∧
       (previewOp st a sid).1 = createUser st email) ∨
    (∃ email u, getEmailFromAuthHeader a = some email ∧
       usersGet (createUser st email).users email = some u ∧
       userPrevs st email = u.previews ∧
       objGet u.previews undefinedKey < 5 ∧
       (previewOp st a sid).1 = { createUser st email with
         users := usersSetPreviews (createUser st email).users email
           (objSet u.previews undefinedKey (objGet u.previews undefinedKey + 1)) }) := by
  cases hge : getEmailFromAuthHeader a with
  | none => left; simp [previewOp, hge]
  | some email =>
      obtain ⟨u, hu, hprev⟩ := createUser_get_self st email
      by_cases hcnt : objGet u.previews undefinedKey ≥ 5
      · right; left
        refine ⟨email, rfl, ?_⟩
        simp [previewOp, hge, hu, hcnt]
      · right; right
        refine ⟨email, u, rfl, hu, hprev, by omega, ?_⟩
        simp [previewOp, hge, hu, hcnt]

theorem userCount_createUser (st : DB) (e e' : Email) (c : Category) :
    userCount (createUser st e) e' c = userCount st e' c := by
  unfold userCount
  rw [userPrevs_createUser]

/-- The previews object the preview endpoint persists, seen from any email:
unchanged for other users, updated by `objSet` for the requesting one. -/
theorem userPrevs_after_increment (st : DB) (email e : Email) (u : UserRec)
    (m : List (Category × Nat))
    (hu : usersGet (createUser st email).users email = some u) :
    userPrevs { createUser st email with
        users := usersSetPreviews (createUser st email).users email m } e
      = if e = email then m else userPrevs st e := by
  by_cases he : e = email
  · subst he
    simp [userPrevs, usersGet_setPreviews_same (createUser st e).users e m u hu]
  · rw [if_neg he]
    simp [userPrevs, usersGet_setPreviews_other (createUser st email).users email e m he,
      createUser_get_other st email e he]

theorem userCount_previewOp_le (st : DB) (a : Option Token) (sid : Nat)
    (e : Email) (c : Category) :
    userCount st e c ≤ userCount (previewOp st a sid).1 e c := by
  rcases previewOp_fst_cases st a sid with h | ⟨email, _, h⟩ |
    ⟨email, u, _, hu, hprev, hlt, h⟩
  · rw [h]
  · rw [h, userCount_createUser]
  · rw [h]
    unfold userCount
    rw [userPrevs_after_increment st email e u _ hu]
    by_cases he : e = email
    · rw [if_pos he, he, hprev]
      by_cases hc : c = undefinedKey
      · subst hc
        rw [objGet_objSet_same]
        omega
      · rw [objGet_objSet_other _ _ _ _ hc]
    · rw [if_neg he]

theorem userPrevs_keys_previewOp (st : DB) (a : Option Token) (sid : Nat)
    (e : Email) (c : Category) (hmem : c ∈ (userPrevs st e).map Prod.fst) :
    c ∈ (userPrevs (previewOp st a sid).1 e).map Prod.fst := by
  rcases previewOp_fst_cases st a sid with h | ⟨email, _, h⟩ |
    ⟨email, u, _, hu, hprev, hlt, h⟩
  · rw [h]; exact hmem
  · rw [h, userPrevs_createUser]; exact hmem
  · rw [h, userPrevs_after_increment st email e u _ hu]
    by_cases he : e = email
    · rw [if_pos he]
      apply objSet_keys_mono
      rw [← hprev, ← he]
      exact hmem
    · rw [if_neg he]; exact hmem

/-- C1 (code bug): the per-category preview gate the claim (and the code's
own swagger documentation and comments) describe does not happen.  At the
failing input — user a@x.com with previews {"Calm": 5}, a valid token, and
song #1 of category "Calm" — the handler reads `previews["undefined"]` (0),
so instead of failing Forbidden with the map unchanged it persists
`previews["undefined"] = 1` and answers 500 from the `path.join` TypeError;
and at {"Calm": 1} a preview leaves the "Calm" count at 1 instead of
raising it to 2. -/
theorem preview_gate_c1 :
    userCount wDB5 "a@x.com" "Calm" = 5 ∧
    previewOp wDB5 (some wTokPrev) 1
      = ({ users := [("a@x.com",
            { passwordHash := none, previews := [("Calm", 5), ("undefined", 1)] })],
           songs := [(1, wSong)], files := ["calm1.mp3"] },
         PreviewResult.serverError) ∧
    PreviewResult.serverError.status = 500 ∧
    (previewOp wDB5 (some wTokPrev) 1).2 ≠ PreviewResult.limitReached ∧
    userCount (previewOp wDB5 (some wTokPrev) 1).1 "a@x.com" undefinedKey = 1 ∧
    userCount wDB1 "a@x.com" "Calm" = 1 ∧
    userCount (previewOp wDB1 (some wTokPrev) 1).1 "a@x.com" "Calm" = 1 := by
  decide

/-- C4 (code bug): the claimed charge-then-404 never happens.  At the
failing input — previews {"Calm": 1}, a valid token, song #1 of category
"Calm" whose file calm1.mp3 is absent from uploads/ — the handler throws in
`path.join(UPLOADS, undefined)` before `fs.existsSync` runs and answers 500,
not NotFound, and the persisted charge lands on `previews["undefined"]`
while the "Calm" count stays at 1. -/
theorem preview_charge_c4 :
    objGet wUserCalm1.previews "Calm" < 5 ∧
    wSong.filename ∉ wDBnofile.files ∧
    previewOp wDBnofile (some wTokPrev) 1
      = ({ users := [("a@x.com",
            { passwordHash := none, previews := [("Calm", 1), ("undefined", 1)] })],
           songs := [(1, wSong)], files := [] },
         PreviewResult.serverError) ∧
    PreviewResult.serverError.status = 500 ∧
    (previewOp wDBnofile (some wTokPrev) 1).2 ≠ PreviewResult.fileMissing ∧
    userCount (previewOp wDBnofile (some wTokPrev) 1).1 "a@x.com" "Calm"
      = userCount wDBnofile "a@x.com" "Calm" ∧
    userCount (previewOp wDBnofile (some wTokPrev) 1).1 "a@x.com" undefinedKey = 1 := by
  decide

/-- C2 (code bug): download eligibility is not the claimed "count > 0 for
the song's category".  At the failing input — a valid user-kind token, song
#1 of category "Calm", previews {"Calm": 1} and the file present — the gate
reads `previews["undefined"]` (0) and fails Forbidden instead of
succeeding; and even when `previews["undefined"]` is positive the handler
answers 500 from the `path.join` TypeError, so a successful download is
unreachable.  The state is unchanged in both cases. -/
theorem download_allowance_c2 :
    wTokUser.valid = true ∧ wTokUser.kind = TokenKind.user ∧
    userCount wDB1 "a@x.com" "Calm" = 1 ∧
    downloadOp wDB1 (some wTokUser) 1 = (wDB1, DownloadResult.noAllowance) ∧
    DownloadResult.noAllowance.status = 403 ∧
    userCount wDBundef "a@x.com" undefinedKey = 1 ∧
    downloadOp wDBundef (some wTokUser) 1 = (wDBundef, DownloadResult.serverError) ∧
    DownloadResult.serverError.status = 500 := by
  decide

/-- C3: a valid, unexpired preview-kind token is rejected by the download
endpoint with the same 401 status a missing or unverifiable token gets, and
only valid user-kind tokens pass the endpoint's authentication. -/
theorem download_auth_c3 (st : DB) (sid : Nat) (t : Token)
    (hv : t.valid = true) (hk : t.kind = TokenKind.preview) :
    downloadOp st (some t) sid = (st, DownloadResult.invalidTokenType) ∧
    DownloadResult.invalidTokenType.status = 401 ∧
    downloadOp st none sid = (st, DownloadResult.tokenRequired) ∧
    DownloadResult.tokenRequired.status = 401 ∧
    (∀ t', t'.valid = false →
       downloadOp st (some t') sid = (st, DownloadResult.invalidToken) ∧
       DownloadResult.invalidToken.status = 401) ∧
    (∀ t', (downloadOp st (some t') sid).2.status ≠ 401 →
       t'.kind = TokenKind.user ∧ t'.valid = true) := by
  refine ⟨?_, rfl, rfl, rfl, ?_, ?_⟩
  · simp [downloadOp, hv, hk]
  · intro t' hv'
    exact ⟨by simp [downloadOp, hv'], rfl⟩
  · intro t' hpass
    cases hv' : t'.valid with
    | false =>
        exfalso
        apply hpass
        simp [downloadOp, hv', DownloadResult.status]
    | true =>
        cases hk' : t'.kind with
        | preview =>
            exfalso
            apply hpass
            simp [downloadOp, hv', hk', DownloadResult.status]
        | user => exact ⟨rfl, rfl⟩

theorem download_auth_c3_witness :
    wTokPrev.valid = true ∧ wTokPrev.kind = TokenKind.preview ∧
    downloadOp wDB1 (some wTokPrev) 1 = (wDB1, DownloadResult.invalidTokenType) ∧
    DownloadResult.invalidTokenType.status = 401 :=
  ⟨by decide, by decide,
    (download_auth_c3 wDB1 1 wTokPrev (by decide) (by decide)).1,
    (download_auth_c3 wDB1 1 wTokPrev (by decide) (by decide)).2.1⟩

/-- C5: a user record is created with every category count 0 (absent entry
reads as 0), and every normal-flow operation leaves every (user, category)
count non-decreasing and never removes a category entry. -/
theorem counts_invariant_c5 :
    (∀ st e c, usersGet st.users e = none →
       userCount (createUser st e) e c = 0) ∧
    (∀ st op e c, userCount st e c ≤ userCount (stepOp st op) e c) ∧
    (∀ st op e c, c ∈ (userPrevs st e).map Prod.fst →
       c ∈ (userPrevs (stepOp st op) e).map Prod.fst) := by
  refine ⟨?_, ?_, ?_⟩
  · intro st e c hnone
    unfold userCount
    rw [userPrevs_createUser]
    simp [userPrevs, hnone, objGet]
  · intro st op e c
    cases op with
    | requestPreview em =>
        cases em with
        | none => simp [stepOp, requestPreviewOp]
        | some e0 =>
            simp only [stepOp, requestPreviewOp]
            rw [userCount_createUser]
    | pay t sf => rw [stepOp, payOp_fst]
    | setPassword t p =>
        simp only [stepOp]
        unfold userCount
        rw [setPasswordOp_prevs]
    | login e0 p => rw [stepOp, loginOp_fst]
    | preview a sid => exact userCount_previewOp_le st a sid e c
    | download a sid => rw [stepOp, downloadOp_fst]
    | userSetPassword a p =>
        simp only [stepOp]
        unfold userCount
        rw [userSetPasswordOp_prevs]
  · intro st op e c hmem
    cases op with
    | requestPreview em =>
        cases em with
        | none => simpa [stepOp, requestPreviewOp] using hmem
        | some e0 =>
            simp only [stepOp, requestPreviewOp]
            rw [userPrevs_createUser]
            exact hmem
    | pay t sf => rw [stepOp, payOp_fst]; exact hmem
    | setPassword t p =>
        simp only [stepOp]
        rw [setPasswordOp_prevs]
        exact hmem
    | login e0 p => rw [stepOp, loginOp_fst]; exact hmem
    | preview a sid => exact userPrevs_keys_previewOp st a sid e c hmem
    | download a sid => rw [stepOp, downloadOp_fst]; exact hmem
    | userSetPassword a p =>
        simp only [stepOp]
        rw [userSetPasswordOp_prevs]
        exact hmem

theorem counts_invariant_c5_witness :
    usersGet wDB1.users "ghost@x.com" = none ∧
    userCount (createUser wDB1 "ghost@x.com") "ghost@x.com" "Calm" = 0 ∧
    userCount wDB1 "a@x.com" "Calm"
      ≤ userCount (stepOp wDB1 (Op.preview (some wTokPrev) 1)) "a@x.com" "Calm" ∧
    "Calm" ∈ (userPrevs wDB1 "a@x.com").map Prod.fst ∧
    "Calm" ∈ (userPrevs (stepOp wDB1 (Op.preview (some wTokPrev) 1)) "a@x.com").map Prod.fst :=
  ⟨by decide,
   counts_invariant_c5.1 wDB1 "ghost@x.com" "Calm" (by decide),
   counts_invariant_c5.2.1 wDB1 (Op.preview (some wTokPrev) 1) "a@x.com" "Calm",
   by decide,
   counts_invariant_c5.2.2 wDB1 (Op.preview (some wTokPrev) 1) "a@x.com" "Calm" (by decide)⟩

/-- C6: the pay endpoint never touches persisted state — across all four
outcomes (200 ok, 400 missing token, 401 invalid/expired token, 402
simulated failure) the returned state is exactly the input state, so no
record of payment success exists anywhere. -/
theorem pay_pure_c6 (st : DB) (e : Email) (k : TokenKind) (sf : Bool) :
    (∀ tok, (payOp st tok sf).1 = st) ∧
    payOp st none sf = (st, PayResult.tokenRequired) ∧
    PayResult.tokenRequired.status = 400 ∧
    payOp st (some { email := e, kind := k, valid := false }) sf
      = (st, PayResult.invalidToken) ∧
    PayResult.invalidToken.status = 401 ∧
    payOp st (some { email := e, kind := k, valid := true }) true
      = (st, PayResult.paymentFailed) ∧
    PayResult.paymentFailed.status = 402 ∧
    payOp st (some { email := e, kind := k, valid := true }) false = (st, PayResult.ok) ∧
    PayResult.ok.status = 200 :=
  ⟨fun tok => payOp_fst st tok sf, rfl, rfl, by simp [payOp], rfl, by simp [payOp], rfl,
   by simp [payOp], rfl⟩

/-- C7: with a valid preview token for an existing user, a successful
SetPassword yields a valid user-kind token and makes Login with the same
email and password succeed with a user-kind token; and Login is
Unauthorized (401) when no user exists, when no password hash is set, or
when the stored hash does not match the supplied password. -/
theorem upgrade_login_c7 :
    (∀ st t p u st' tk,
       t.valid = true → t.kind = TokenKind.preview →
       usersGet st.users t.email = some u →
       setPasswordOp st (some t) (some p) = (st', SPResult.ok tk) →
       tk.kind = TokenKind.user ∧ tk.valid = true ∧
       loginOp st' (some t.email) (some p)
         = (st', LoginResult.ok { email := t.email, kind := TokenKind.user, valid := true })) ∧
    (∀ st e p, usersGet st.users e = none →
       loginOp st (some e) (some p) = (st, LoginResult.unauthorized) ∧
       LoginResult.unauthorized.status = 401) ∧
    (∀ st e p u, usersGet st.users e = some u → u.passwordHash = none →
       loginOp st (some e) (some p) = (st, LoginResult.unauthorized)) ∧
    (∀ st e p q u, usersGet st.users e = some u →
       u.passwordHash = some (HashV.mk q) → q ≠ p →
       loginOp st (some e) (some p) = (st, LoginResult.unauthorized)) := by
  refine ⟨?_, ?_, ?_, ?_⟩
  · intro st t p u st' tk hv hk hu hsp
    have hcomp : setPasswordOp st (some t) (some p)
        = ({ st with users := usersSetPassword st.users t.email (HashV.mk p) },
           SPResult.ok { email := t.email, kind := TokenKind.user, valid := true }) := by
      simp [setPasswordOp, hv]
    rw [hcomp, Prod.mk.injEq] at hsp
    obtain ⟨hst, hok⟩ := hsp
    injection hok with htk
    subst hst
    subst htk
    refine ⟨rfl, rfl, ?_⟩
    have hulook : usersGet (usersSetPassword st.users t.email (HashV.mk p)) t.email
        = some { u with passwordHash := some (HashV.mk p) } :=
      usersGet_setPassword_same st.users t.email (HashV.mk p) u hu
    simp [loginOp, hulook]
  · intro st e p hnone
    exact ⟨by simp [loginOp, hnone], rfl⟩
  · intro st e p u hu hph
    simp [loginOp, hu, hph]
  · intro st e p q u hu hph hne
    simp [loginOp, hu, hph, hne]

theorem upgrade_login_c7_witness :
    usersGet wDB1.users wTokPrev.email = some wUserCalm1 ∧
    loginOp (setPasswordOp wDB1 (some wTokPrev) (some "pw")).1
        (some wTokPrev.email) (some "pw")
      = ((setPasswordOp wDB1 (some wTokPrev) (some "pw")).1,
         LoginResult.ok { email := wTokPrev.email, kind := TokenKind.user, valid := true }) ∧
    loginOp wDB1 (some "ghost@x.com") (some "pw") = (wDB1, LoginResult.unauthorized) :=
  ⟨by decide,
   (upgrade_login_c7.1 wDB1 wTokPrev "pw" wUserCalm1
      (setPasswordOp wDB1 (some wTokPrev) (some "pw")).1
      { email := wTokPrev.email, kind := TokenKind.user, valid := true }
      (by decide) (by decide) (by decide) (by decide)).2.2,
   (upgrade_login_c7.2.1 wDB1 "ghost@x.com" "pw" (by decide)).1⟩

/-- C8: when a user row for the email already exists, request-preview leaves
the whole state — the existing record with its counts and password hash
included — unchanged, and still returns a fresh valid preview token. -/
theorem request_preview_idempotent_c8 (st : DB) (e : Email) (u : UserRec)
    (hu : usersGet st.users e = some u) :
    requestPreviewOp st (some e)
      = (st, RPResult.ok { email := e, kind := TokenKind.preview, valid := true }) ∧
    usersGet (requestPreviewOp st (some e)).1.users e = some u := by
  have hcu : createUser st e = st := createUser_present st e u hu
  refine ⟨by simp [requestPreviewOp, hcu], ?_⟩
  simp [requestPreviewOp, hcu, hu]

theorem request_preview_idempotent_c8_witness :
    usersGet wDB1.users "a@x.com" = some wUserCalm1 ∧
    requestPreviewOp wDB1 (some "a@x.com")
      = (wDB1, RPResult.ok { email := "a@x.com", kind := TokenKind.preview, valid := true }) :=
  ⟨by decide,
   (request_preview_idempotent_c8 wDB1 "a@x.com" wUserCalm1 (by decide)).1⟩

/-- C9: neither set-password nor pay inspects the token's kind — a valid,
unexpired user-kind token is processed by set-password exactly as the
corresponding preview-kind token would be (password persisted, fresh user
token issued) and is accepted by pay; indeed any token that verifies under
the server secret passes both endpoints' checks. -/
theorem kind_unchecked_c9 (st : DB) (t : Token) (p : Password)
    (hv : t.valid = true) (hk : t.kind = TokenKind.user) :
    setPasswordOp st (some t) (some p)
      = ({ st with users := usersSetPassword st.users t.email (HashV.mk p) },
         SPResult.ok { email := t.email, kind := TokenKind.user, valid := true }) ∧
    setPasswordOp st (some t) (some p)
      = setPasswordOp st
          (some { email := t.email, kind := TokenKind.preview, valid := true }) (some p) ∧
    payOp st (some t) false = (st, PayResult.ok) ∧
    payOp st (some t) true = (st, PayResult.paymentFailed) ∧
    (∀ t', t'.valid = true →
       payOp st (some t') false = (st, PayResult.ok) ∧
       (setPasswordOp st (some t') (some p)).2
         = SPResult.ok { email := t'.email, kind := TokenKind.user, valid := true }) := by
  refine ⟨by simp [setPasswordOp, hv], by simp [setPasswordOp, hv], by simp [payOp, hv],
    by simp [payOp, hv], ?_⟩
  intro t' hv'
  exact ⟨by simp [payOp, hv'], by simp [setPasswordOp, hv']⟩

theorem kind_unchecked_c9_witness :
    wTokUser.valid = true ∧ wTokUser.kind = TokenKind.user ∧
    payOp wDB1 (some wTokUser) false = (wDB1, PayResult.ok) ∧
    setPasswordOp wDB1 (some wTokUser) (some "pw")
      = setPasswordOp wDB1
          (some { email := wTokUser.email, kind := TokenKind.preview, valid := true })
          (some "pw") :=
  ⟨by decide, by decide,
   (kind_unchecked_c9 wDB1 wTokUser "pw" (by decide) (by decide)).2.2.1,
   (kind_unchecked_c9 wDB1 wTokUser "pw" (by decide) (by decide)).2.1⟩

/-- C10: set-password with a valid token for an email with no user row still
responds success with a fresh user-kind token while leaving the state
completely unchanged (no row created, no hash stored), and a subsequent
Login with that email fails Unauthorized (401). -/
theorem ghost_setpassword_c10 (st : DB) (t : Token) (p : Password)
    (hv : t.valid = true) (hnone : usersGet st.users t.email = none) :
    setPasswordOp st (some t) (some p)
      = (st, SPResult.ok { email := t.email, kind := TokenKind.user, valid := true }) ∧
    loginOp st (some t.email) (some p) = (st, LoginResult.unauthorized) ∧
    LoginResult.unauthorized.status = 401 := by
  have habs : usersSetPassword st.users t.email (HashV.mk p) = st.users :=
    usersSetPassword_absent st.users t.email (HashV.mk p) hnone
  refine ⟨?_, by simp [loginOp, hnone], rfl⟩
  simp [setPasswordOp, hv, habs]

theorem ghost_setpassword_c10_witness :
    wTokGhost.valid = true ∧
    usersGet wDB1.users wTokGhost.email = none ∧
    setPasswordOp wDB1 (some wTokGhost) (some "pw")
      = (wDB1, SPResult.ok { email := wTokGhost.email, kind := TokenKind.user, valid := true }) ∧
    loginOp wDB1 (some wTokGhost.email) (some "pw") = (wDB1, LoginResult.unauthorized) :=
  ⟨by decide, by decide,
   (ghost_setpassword_c10 wDB1 wTokGhost "pw" (by decide) (by decide)).1,
   (ghost_setpassword_c10 wDB1 wTokGhost "pw" (by decide) (by decide)).2.1⟩
